import Mathlib

/-!
Verification of the statement-templating and connection-liveness core of
`src/connections/mysql_package.py` (class `Mysql`), via a shallow embedding.

Python strings are modelled as Lean `String`; the Python string operations
used by the source (`str.replace`, `str.strip(',')`, slicing `s[1:]`,
`str.upper`, the `in` substring test, and `str.format` restricted to the
two named fields `{columns}` / `{values}` that all templates of this file
contain — substituted in one scan, never rescanning substituted text) are
defined below on `List Char` so that they are executable and reducible by
the kernel.  Paths on which the Python code raises — shape-mixed batches
inside the statement parser, the empty-list indexing in `select` — are
modelled as `Except.error` carrying the exception, never collapsed into a
normal result.
-/

namespace MysqlPkg

/-- Model of Python `str.replace(pat, rep)`: replace every non-overlapping
occurrence of `pat` from left to right.  `fuel` is an upper bound on the
number of characters still to be scanned; callers pass the full length of
the string, which suffices because each step consumes at least one
character when `pat` is nonempty. -/
def replaceFuel (pat rep : List Char) : Nat → List Char → List Char
  | 0, s => s
  | _ + 1, [] => []
  | fuel + 1, c :: rest =>
    if !pat.isEmpty && pat.isPrefixOf (c :: rest) then
      rep ++ replaceFuel pat rep fuel ((c :: rest).drop pat.length)
    else
      c :: replaceFuel pat rep fuel rest

/-- Python `s.replace(pat, rep)` on `String`. -/
def pyReplace (s pat rep : String) : String :=
  String.mk (replaceFuel pat.data rep.data s.data.length s.data)

/-- Model of Python `s.strip(',')` on the character list: remove every
leading and every trailing comma. -/
def stripBoth (l : List Char) : List Char :=
  ((l.dropWhile (fun c => c == ',')).reverse.dropWhile (fun c => c == ',')).reverse

/-- Python `s.strip(',')` on `String`. -/
def pyStripComma (s : String) : String :=
  String.mk (stripBoth s.data)

/-- Python `s[1:]` on `String`. -/
def pyDropOne (s : String) : String :=
  String.mk (s.data.drop 1)

/-- Model of Python `pat in s` (substring test). -/
def containsSub (pat : List Char) : List Char → Bool
  | [] => pat.isEmpty
  | c :: rest => pat.isPrefixOf (c :: rest) || containsSub pat rest

/-- Model of Python `s.upper()` (ASCII uppercasing, which is all the
source's SELECT-detection needs). -/
def pyUpper (s : String) : String :=
  String.mk (s.data.map Char.toUpper)

/-- `Mysql.__is_select`: `'SELECT' in sql.upper()`. -/
def is_select (sql : String) : Bool :=
  containsSub "SELECT".data (pyUpper sql).data

/-- The serialization kind of one scalar value, as dispatched by
`Mysql.__singleLineParser` with `isinstance` checks.  The `bytes`
constructor carries the Python textual rendering `str(b)` of the bytes
value (always of the shape `b'...'`), since the source only ever uses the
bytes value through `'%s' % value`. -/
inductive Value
  | int (n : Int)
  | bytes (r : String)
  | null
  | text (s : String)
deriving DecidableEq, Repr

/-- One row's worth of data in the three argument shapes accepted by
`Mysql.__multiLineParser`: a `dict`, a `list`, or a bare scalar.
Mappings are modelled as ordered association lists (Python dicts preserve
insertion order). -/
inductive RowSpec
  | dict (m : List (String × Value))
  | list (l : List Value)
  | scalar (v : Value)
deriving DecidableEq, Repr

def dictOf : RowSpec → List (String × Value)
  | .dict m => m
  | _ => []

/-- The name Python's runtime reports for the type of one argument, as it
appears in `AttributeError`/`TypeError` messages. -/
def pyTypeName : RowSpec → String
  | .dict _ => "dict"
  | .list _ => "list"
  | .scalar (Value.int _) => "int"
  | .scalar (Value.text _) => "str"
  | .scalar (Value.bytes _) => "bytes"
  | .scalar Value.null => "NoneType"

/-- One character of CPython's `repr` for a string, given the chosen
quote character: backslash, the quote, tab, newline and carriage return
are backslash-escaped; other ASCII control characters become `\xNN`
(Unicode printability of non-ASCII characters follows CPython and is not
modelled beyond keeping them literal). -/
def pyStrEscape (q c : Char) : List Char :=
  if c = '\\' then ['\\', '\\']
  else if c = q then ['\\', q]
  else if c = '\t' then ['\\', 't']
  else if c = '\n' then ['\\', 'n']
  else if c = '\r' then ['\\', 'r']
  else if c.toNat < 0x20 ∨ c.toNat = 0x7f then
    ['\\', 'x', Nat.digitChar ((c.toNat / 16) % 16), Nat.digitChar (c.toNat % 16)]
  else [c]

/-- CPython's `repr` for a string: single-quoted, unless the string
contains a single quote and no double quote. -/
def pyStrRepr (s : String) : String :=
  let q : Char := if s.data.contains '\x27' && !s.data.contains '"' then '"' else '\x27'
  String.mk (q :: (s.data.map (pyStrEscape q)).flatten ++ [q])

/-- Python's `repr` of one element inside a container rendering: ints
decimal, `None`, bytes as their carried `b'...'` rendering (which is
already the repr), strings via `pyStrRepr`. -/
def pyReprElem : Value → String
  | .int n => Int.repr n
  | .null => "None"
  | .bytes r => r
  | .text s => pyStrRepr s

/-- Python `str()` of a list value, as interpolated by `'%s' % value`. -/
def pyListStr (l : List Value) : String :=
  "[" ++ String.intercalate ", " (l.map pyReprElem) ++ "]"

/-- Python `str()` of a dict value, as interpolated by `'%s' % value`. -/
def pyDictStr (m : List (String × Value)) : String :=
  "\x7b" ++ String.intercalate ", "
    (m.map (fun kv => pyStrRepr kv.1 ++ ": " ++ pyReprElem kv.2)) ++ "\x7d"

/-- How one member of a scalar-headed batch enters the row item built by
`dict(zip(columns[:len(args)], args))`: a scalar is the value itself; a
dict or list member does not crash there — `__single_line_parser`'s
`else` branch later renders it as the single-quoted `str()` of the
container. -/
def memberValue : RowSpec → Value
  | .scalar v => v
  | .dict m => Value.text (pyDictStr m)
  | .list l => Value.text (pyListStr l)

/-- The piece appended to the `values` accumulator by one iteration of the
loop in `Mysql.__singleLineParser`:
`isinstance(value, int)` → `'%s,' % value`;
`isinstance(value, bytes)` → `('%s,' % value)[1:]`;
`value is None` → `'NULL,'`; otherwise → `"'%s'," % value`. -/
def valueComma : Value → String
  | .int n => Int.repr n ++ ","
  | .bytes r => pyDropOne (r ++ ",")
  | .null => "NULL,"
  | .text s => "\x27" ++ s ++ "\x27,"

/-- The `columns` accumulator built by the loop of
`Mysql.__singleLineParser` (the source builds `columns` and `values` in
one pass; the two folds below compute the same two strings). -/
def rowColumns (item : List (String × Value)) : String :=
  item.foldl (fun acc kv => acc ++ "`" ++ kv.1 ++ "`,") ""

/-- The `values` accumulator built by the loop of
`Mysql.__singleLineParser`. -/
def rowValues (item : List (String × Value)) : String :=
  item.foldl (fun acc kv => acc ++ valueComma kv.2) ""

/-- One left-to-right scan of a template, substituting `c` for each
occurrence of `{columns}` and `v` for each occurrence of `{values}`.
Substituted text is skipped over, never rescanned — `str.format`
semantics, unlike the chained `str.replace` of `_multiple` (which
genuinely is two sequential replaces in the source and is modelled by
`pyReplace`). -/
def formatFuel (c v : List Char) : Nat → List Char → List Char
  | 0, s => s
  | _ + 1, [] => []
  | fuel + 1, ch :: rest =>
    if ("\x7bcolumns\x7d".data).isPrefixOf (ch :: rest) then
      c ++ formatFuel c v fuel ((ch :: rest).drop "\x7bcolumns\x7d".data.length)
    else if ("\x7bvalues\x7d".data).isPrefixOf (ch :: rest) then
      v ++ formatFuel c v fuel ((ch :: rest).drop "\x7bvalues\x7d".data.length)
    else
      ch :: formatFuel c v fuel rest

/-- Python `sql.format(columns=c, values=v)` for the templates of this
source, which contain exactly the named fields `{columns}` and
`{values}`. -/
def pyFormat2 (sql c v : String) : String :=
  String.mk (formatFuel c.data v.data sql.data.length sql.data)

/-- `Mysql.__singleLineParser(sql, item)`. -/
def singleLineParser (sql : String) (item : List (String × Value)) : String :=
  pyFormat2 sql (pyStripComma (rowColumns item)) (pyStripComma (rowValues item))

/-- `Mysql.__batch_slice(s, step)`:
`quotient = len(s) // step`; when the quotient is nonzero the result is
the windows `s[index:index+step]` for `index in range(quotient)`, and
otherwise the single chunk `[s]`. -/
def batch_slice {α : Type} (s : List α) (step : Nat) : List (List α) :=
  let quotient := s.length / step
  if quotient = 0 then [s]
  else (List.range quotient).map (fun index => (s.drop index).take step)

/-- `Mysql._multiple(sql, *args, **kwargs)`: when
`len(kwargs.keys()) > 1 or len(args) > 1`, rewrite the template with
`sql.replace('{', '({').replace('}', '})')`. -/
def multiple (sql : String) (args : List RowSpec) (kwargs : List (String × Value)) : String :=
  if kwargs.length > 1 ∨ args.length > 1 then
    pyReplace (pyReplace sql "\x7b" "(\x7b") "\x7d" "\x7d)"
  else sql

instance exceptDecEq {ε α : Type} [DecidableEq ε] [DecidableEq α] :
    DecidableEq (Except ε α) := fun a b =>
  match a, b with
  | Except.error e1, Except.error e2 =>
      if h : e1 = e2 then isTrue (by rw [h]) else isFalse (fun hc => h (Except.error.inj hc))
  | Except.ok v1, Except.ok v2 =>
      if h : v1 = v2 then isTrue (by rw [h]) else isFalse (fun hc => h (Except.ok.inj hc))
  | Except.error _, Except.ok _ => isFalse (fun hc => Except.noConfusion hc)
  | Except.ok _, Except.error _ => isFalse (fun hc => Except.noConfusion hc)

/-- The row items one batch of `Mysql.__multi_line_parser` contributes,
dispatched on the shape of the batch's first element exactly as the
source dispatches on `isinstance(args[0], ...)`.  Where the dynamic
typing of the source raises, the model returns `Except.error` carrying
the exception:
a non-dict member of a dict-headed batch hits `item.items()`
(`AttributeError`); an int or `None` member of a list-headed batch hits
`len(arg)` (`TypeError`).  A dict member of a list-headed batch does not
raise — `zip` iterates its keys — and a str member is iterated
character-by-character; both are modelled.  A bytes member of a
list-headed batch is iterated byte-by-byte by Python, and the byte
values are not determined by the carried textual rendering, so the model
reports that path as outside the model. -/
def rowItems (columns : List String) (batch : List RowSpec) :
    Except String (List (List (String × Value))) :=
  match batch.head? with
  | none => Except.ok []
  | some (RowSpec.dict _) =>
      batch.mapM (fun arg =>
        match arg with
        | RowSpec.dict m => Except.ok m
        | _ => Except.error ("AttributeError: \x27" ++ pyTypeName arg ++
            "\x27 object has no attribute \x27items\x27"))
  | some (RowSpec.list _) =>
      batch.mapM (fun arg =>
        match arg with
        | RowSpec.list l => Except.ok ((columns.take l.length).zip l)
        | RowSpec.dict m =>
            Except.ok ((columns.take m.length).zip (m.map (fun kv => Value.text kv.1)))
        | RowSpec.scalar (Value.text s) =>
            Except.ok ((columns.take s.data.length).zip
              (s.data.map (fun ch => Value.text (String.mk [ch]))))
        | RowSpec.scalar (Value.bytes _) =>
            Except.error
              "model boundary: byte-level iteration of a bytes row is not determined by the carried rendering"
        | RowSpec.scalar _ =>
            Except.error ("TypeError: object of type \x27" ++ pyTypeName arg ++
              "\x27 has no len()"))
  | some (RowSpec.scalar _) =>
      Except.ok [(columns.take batch.length).zip (batch.map memberValue)]

/-- `Mysql.__multi_line_parser(table, sql, *args, **kwargs)`.

The column names obtained by the `information_schema.COLUMNS`
introspection query are passed in as the parameter `columns` (the source
obtains them through `execute_sql`; they are external input to the
templating engine).  Batches are processed in order, each through
`rowItems`; the first exception a batch raises aborts the whole call, as
in the source, where the partially built `res` is discarded when the
exception propagates. -/
def multiLineParser (columns : List String) (sql : String)
    (args : List RowSpec) (kwargs : List (String × Value)) (batch_size : Nat) :
    Except String (List String) :=
  let kwpart := if kwargs.isEmpty then [] else [singleLineParser sql kwargs]
  if args.isEmpty then Except.ok kwpart
  else
    match (batch_slice args batch_size).mapM (rowItems columns) with
    | Except.error e => Except.error e
    | Except.ok itemss =>
        Except.ok ((itemss.flatten.map (singleLineParser sql)) ++ kwpart)

/-- The statement template built by `Mysql.insert`:
`"INSERT INTO `%s` {columns} VALUES {values};" % table`. -/
def insertTemplate (table : String) : String :=
  "INSERT INTO `" ++ table ++ "` \x7bcolumns\x7d VALUES \x7bvalues\x7d;"

/-- The list of SQL statements `Mysql.insert` hands to `execute_sql`
(`Except.error` when the statement parser raises first). -/
def insert_statements (table : String) (columns : List String)
    (args : List RowSpec) (kwargs : List (String × Value)) (batch_size : Nat) :
    Except String (List String) :=
  multiLineParser columns (multiple (insertTemplate table) args kwargs) args kwargs batch_size

/-- The predicate template built by `Mysql.select`:
`'SELECT * FROM %s WHERE {columns} = {values}' % table`. -/
def selectTemplate (table : String) : String :=
  "SELECT * FROM " ++ table ++ " WHERE \x7bcolumns\x7d = \x7bvalues\x7d"

/-- The list of SQL statements `Mysql.select` generates before indexing
(`Except.error` when the statement parser raises first). -/
def select_statements (table : String) (columns : List String)
    (args : List RowSpec) (kwargs : List (String × Value)) (batch_size : Nat) :
    Except String (List String) :=
  multiLineParser columns
    (if args.isEmpty && kwargs.isEmpty then "SELECT * FROM " ++ table
     else multiple (selectTemplate table) args kwargs)
    args kwargs batch_size

/-- The statement `Mysql.select` actually executes: `sql = sql[0]`.
An exception from the statement parser propagates; indexing an empty
statement list is a Python `IndexError`, modelled as `Except.error`. -/
def select_executed (table : String) (columns : List String)
    (args : List RowSpec) (kwargs : List (String × Value)) (batch_size : Nat) :
    Except String String :=
  match select_statements table columns args kwargs batch_size with
  | Except.error e => Except.error e
  | Except.ok [] => Except.error "IndexError: list index out of range"
  | Except.ok (s :: _) => Except.ok s

/-- What `Mysql.execute_sql` returns on a successful run: `fetchall`'s
rows when the final `select_flag` is set, and otherwise the value of
`result` (`None` before any statement has executed, else the affected-row
count of the last `cursor.execute`). -/
inductive ExecOut (α : Type)
  | rows (fetched : α)
  | count (n : Option Nat)
deriving DecidableEq, Repr

/-- The loop of `Mysql.execute_sql` on a list of statements:
`result = None; select_flag = False;
for i in sql: select_flag = __is_select(i); result = cursor.execute(i)`,
then `return cursor.fetchall() if select_flag else result`.
`rowcount` gives the affected-row count the cursor reports for each
statement, and `fetched` the rows `fetchall` would yield. -/
def execute_sql_list {α : Type} (sqls : List String) (rowcount : String → Nat)
    (fetched : α) : ExecOut α :=
  let final := sqls.foldl
    (fun _acc s => ((some (rowcount s) : Option Nat), is_select s))
    ((none : Option Nat), false)
  if final.2 then ExecOut.rows fetched else ExecOut.count final.1

/-- One iteration's worth of externally determined behaviour inside the
retry loop of `Mysql.is_connected`: the `ping(reconnect=True)` probe
succeeds, or it fails and the subsequent
`self.con = self._connect(*self.args, **self.kwargs)` (which stands
outside the `try` block) either returns or raises. -/
inductive ConnAttempt
  | pingOk
  | pingFailConnectOk
  | pingFailConnectRaise
deriving DecidableEq, Repr

/-- Observable outcome of one `Mysql.is_connected` call: how many loop
iterations ran, whether an exception escaped the method, how many
`time.sleep(1)` delays (one per failed attempt, each paired with the
failure log) were performed, and whether the for-else fatal log
(`'[mysql] connect failed, need fix'`) was reached. -/
structure GuardRun where
  attempts : Nat
  raised : Bool
  sleeps : Nat
  fatal : Bool
deriving DecidableEq, Repr

/-- The `for i in range(120): ... else: ...` loop of `Mysql.is_connected`,
with `fuel` the number of iterations remaining, `i` the number already
run and `sleeps` the delays performed so far.  A successful probe
`break`s; a failed probe logs, closes, reconnects, warns and sleeps; a
raising reconnect call propagates out of the method; exhausting the range
runs the `else` (fatal) branch and returns. -/
def guardLoop (outcome : Nat → ConnAttempt) : Nat → Nat → Nat → GuardRun
  | 0, i, sleeps => { attempts := i, raised := false, sleeps := sleeps, fatal := true }
  | fuel + 1, i, sleeps =>
    match outcome i with
    | ConnAttempt.pingOk =>
        { attempts := i + 1, raised := false, sleeps := sleeps, fatal := false }
    | ConnAttempt.pingFailConnectOk => guardLoop outcome fuel (i + 1) (sleeps + 1)
    | ConnAttempt.pingFailConnectRaise =>
        { attempts := i + 1, raised := true, sleeps := sleeps, fatal := false }

/-- `Mysql.is_connected`, as a function of the per-iteration
probe/connect outcomes. -/
def is_connected_model (outcome : Nat → ConnAttempt) : GuardRun :=
  guardLoop outcome 120 0 0

/-- C1: the claim's intended splitting contract fails on the code: on
rows `[1,2,3]` with size `2`, `__batch_slice` returns the single window
`[[1,2]]` — not `ceil(3/2) = 2` order-preserving chunks whose
concatenation is the input — and row `3` is covered by no chunk. -/
theorem batch_slice_floor_bug :
    batch_slice ([1, 2, 3] : List Nat) 2 = [[1, 2]] ∧
      3 ∉ (batch_slice ([1, 2, 3] : List Nat) 2).flatten := by
  decide

/-- C2: `select(table)` with no positional and no keyword arguments never
returns the table's rows: `__multiLineParser` produces an empty
statement list and `sql = sql[0]` raises `IndexError` before any SQL is
executed. -/
theorem select_no_predicate_raises (table : String) (columns : List String)
    (batch_size : Nat) :
    select_executed table columns [] [] batch_size =
      Except.error "IndexError: list index out of range" := rfl

/-- C3: an exception does escape a public operation: `select('users')`
with no predicate raises `IndexError` instead of returning `false` or
logging, refuting the no-escape contract at this input. -/
theorem select_exception_escapes :
    select_executed "users" ["id", "name"] [] [] 10000 =
      Except.error "IndexError: list index out of range" := rfl

/-- C4 counterexample: `insert('t', [1,'a'], [2,'b'])` (with introspected
columns `c1`, `c2`) does not produce the claimed single multi-row
statement; it produces two statements, one per row. -/
theorem insert_two_rows_not_single_statement :
    insert_statements "t" ["c1", "c2"]
        [RowSpec.list [Value.int 1, Value.text "a"],
         RowSpec.list [Value.int 2, Value.text "b"]] [] 10000 ≠
      Except.ok ["INSERT INTO `t` (`c1`,`c2`) VALUES (1,\x27a\x27),(2,\x27b\x27);"] ∧
    (insert_statements "t" ["c1", "c2"]
        [RowSpec.list [Value.int 1, Value.text "a"],
         RowSpec.list [Value.int 2, Value.text "b"]] [] 10000).map List.length =
      Except.ok 2 := by
  decide

/-- C4 amended: `insert('t', [1,'a'], [2,'b'])` (with introspected columns
`c1`, `c2`) produces one parenthesized single-row statement per supplied
row, executed as a two-statement list. -/
theorem insert_two_rows_one_statement_per_row :
    insert_statements "t" ["c1", "c2"]
        [RowSpec.list [Value.int 1, Value.text "a"],
         RowSpec.list [Value.int 2, Value.text "b"]] [] 10000 =
      Except.ok ["INSERT INTO `t` (`c1`,`c2`) VALUES (1,\x27a\x27);",
       "INSERT INTO `t` (`c1`,`c2`) VALUES (2,\x27b\x27);"] := by
  decide

/-- C6 counterexample: a single-row call consisting of one keyword
field-set with two keys (`insert('t', id=1, name='a')`) has its
placeholders wrapped in parentheses, although the claim requires every
single-row call to leave them unwrapped. -/
theorem multiple_wraps_single_keyword_row :
    multiple (insertTemplate "t") [] [("id", Value.int 1), ("name", Value.text "a")] =
      "INSERT INTO `t` (\x7bcolumns\x7d) VALUES (\x7bvalues\x7d);" ∧
    multiple (insertTemplate "t") [] [("id", Value.int 1), ("name", Value.text "a")] ≠
      insertTemplate "t" := by
  decide

/-- C6 amended: for the insert template, the placeholders are wrapped in
parentheses if and only if the call supplies more than one positional row
or the (single) keyword field-set contains more than one key. -/
theorem multiple_wrap_condition (args : List RowSpec) (kwargs : List (String × Value)) :
    multiple (insertTemplate "t") args kwargs =
      (if 1 < args.length ∨ 1 < kwargs.length then
        "INSERT INTO `t` (\x7bcolumns\x7d) VALUES (\x7bvalues\x7d);"
      else insertTemplate "t") := by
  by_cases h : 1 < args.length ∨ 1 < kwargs.length
  · rw [if_pos h]
    unfold multiple
    rw [if_pos (Or.comm.mp h)]
    decide
  · rw [if_neg h]
    unfold multiple
    rw [if_neg (fun hc => h (Or.comm.mp hc))]

/-- C7 counterexample: a statement list whose first element is a SELECT
but whose last is not returns the affected-row count of the last
statement, not the fetched rows the claim requires. -/
theorem execute_sql_any_select_not_returned :
    is_select "SELECT 1" = true ∧
      execute_sql_list ["SELECT 1", "DROP TABLE t"] (fun _ => 3) ([] : List Nat) =
        ExecOut.count (some 3) := by
  decide

/-- C7 amended: when the executor runs a nonempty list of statements, the
fetched rows are returned exactly when the last executed statement is a
SELECT (case-insensitive substring check); otherwise the affected-row
count of the last executed statement is returned. -/
theorem execute_sql_last_statement_decides {α : Type} (init : List String)
    (lastStmt : String) (rowcount : String → Nat) (fetched : α) :
    execute_sql_list (init ++ [lastStmt]) rowcount fetched =
      (if is_select lastStmt then ExecOut.rows fetched
       else ExecOut.count (some (rowcount lastStmt))) := by
  unfold execute_sql_list
  rw [List.foldl_append]
  rfl

/-- C8 counterexample: when the probe fails and the reconnect call
`self.con = self._connect(...)` — which stands outside the `try` block —
raises, the exception escapes `is_connected` on the first attempt, so the
loop does not return control to the caller without raising. -/
theorem is_connected_raises_on_connect_failure :
    is_connected_model (fun _ => ConnAttempt.pingFailConnectRaise) =
      { attempts := 1, raised := true, sleeps := 0, fatal := false } := rfl

lemma digitChar_ne_comma (m : Nat) : Nat.digitChar m ≠ ',' := by
  rcases Nat.lt_or_ge m 16 with h | h
  · interval_cases m <;> decide
  · have h16 : Nat.digitChar m = '*' := by
      unfold Nat.digitChar
      rw [if_neg (by omega : ¬m = 0), if_neg (by omega : ¬m = 1),
        if_neg (by omega : ¬m = 2), if_neg (by omega : ¬m = 3),
        if_neg (by omega : ¬m = 4), if_neg (by omega : ¬m = 5),
        if_neg (by omega : ¬m = 6), if_neg (by omega : ¬m = 7),
        if_neg (by omega : ¬m = 8), if_neg (by omega : ¬m = 9),
        if_neg (by omega : ¬m = 10), if_neg (by omega : ¬m = 11),
        if_neg (by omega : ¬m = 12), if_neg (by omega : ¬m = 13),
        if_neg (by omega : ¬m = 14), if_neg (by omega : ¬m = 15)]
    rw [h16]
    decide

lemma toDigitsCore_all_ne_comma (b : Nat) :
    ∀ (f n : Nat) (ds : List Char), (∀ c ∈ ds, c ≠ ',') →
      ∀ c ∈ Nat.toDigitsCore b f n ds, c ≠ ',' := by
  intro f
  induction f with
  | zero => intro n ds h; simpa [Nat.toDigitsCore] using h
  | succ f ih =>
    intro n ds h c hc
    simp only [Nat.toDigitsCore] at hc
    by_cases hnb : n / b = 0
    · rw [if_pos hnb] at hc
      rcases List.mem_cons.mp hc with h1 | h2
      · subst h1; exact digitChar_ne_comma _
      · exact h _ h2
    · rw [if_neg hnb] at hc
      refine ih _ _ ?_ _ hc
      intro d hd
      rcases List.mem_cons.mp hd with h1 | h2
      · subst h1; exact digitChar_ne_comma _
      · exact h _ h2

lemma toDigitsCore_length_lt (b : Nat) :
    ∀ (f n : Nat) (ds : List Char), ds.length < (Nat.toDigitsCore b (f + 1) n ds).length := by
  intro f
  induction f with
  | zero =>
    intro n ds
    simp only [Nat.toDigitsCore]
    split <;> simp
  | succ f ih =>
    intro n ds
    simp only [Nat.toDigitsCore]
    split
    · simp
    · exact Nat.lt_of_le_of_lt (by simp) (ih (n / b) (Nat.digitChar (n % b) :: ds))

lemma nat_repr_data_ne_nil (n : Nat) : (Nat.repr n).data ≠ [] := by
  have h := toDigitsCore_length_lt 10 n n []
  intro hcontra
  rw [Nat.repr] at hcontra
  simp only [Nat.toDigits, List.asString] at hcontra
  rw [hcontra] at h
  simp at h

lemma nat_repr_all_ne_comma (n : Nat) : ∀ c ∈ (Nat.repr n).data, c ≠ ',' := by
  rw [Nat.repr]
  simp only [Nat.toDigits, List.asString]
  exact toDigitsCore_all_ne_comma 10 (n + 1) n [] (by simp)

lemma int_repr_data_ne_nil (n : Int) : (Int.repr n).data ≠ [] := by
  cases n with
  | ofNat m => exact nat_repr_data_ne_nil m
  | negSucc m =>
    show (("-" : String) ++ Nat.repr (m + 1)).data ≠ []
    rw [String.data_append]
    simp

lemma int_repr_all_ne_comma (n : Int) : ∀ c ∈ (Int.repr n).data, c ≠ ',' := by
  cases n with
  | ofNat m => exact nat_repr_all_ne_comma m
  | negSucc m =>
    show ∀ c ∈ (("-" : String) ++ Nat.repr (m + 1)).data, c ≠ ','
    rw [String.data_append]
    intro c hc
    rcases List.mem_append.mp hc with h1 | h2
    · simp only [List.mem_singleton.mp (by simpa using h1)]
      decide
    · exact nat_repr_all_ne_comma (m + 1) c h2

/-- Stripping commas from a string that ends in one comma and whose core
neither starts nor ends with a comma gives back the core; this is how the
`columns.strip(',')` / `values.strip(',')` calls of
`__singleLineParser` remove exactly the trailing separator. -/
lemma stripBoth_append_comma (l : List Char) (a z : Char)
    (hh : l.head? = some a) (hz : l.getLast? = some z)
    (ha : a ≠ ',') (hzq : z ≠ ',') : stripBoth (l ++ [',']) = l := by
  cases l with
  | nil => simp at hh
  | cons b t =>
    have hb : b = a := by simpa using hh
    have hba : (b == ',') = false := by rw [hb]; simpa using ha
    unfold stripBoth
    have h1 : List.dropWhile (fun c => c == ',') ((b :: t) ++ [',']) = (b :: t) ++ [','] := by
      rw [List.cons_append, List.dropWhile_cons]
      simp [hba]
    rw [h1]
    have h2 : ((b :: t) ++ [',']).reverse = ',' :: (b :: t).reverse := by
      rw [List.reverse_append]
      simp
    rw [h2, List.dropWhile_cons]
    simp only [show ((',' : Char) == ',') = true from rfl, if_true]
    have hne : (b :: t).reverse ≠ [] := by simp
    obtain ⟨w, ws, hw⟩ := List.exists_cons_of_ne_nil hne
    have hwz : w = z := by
      have h3 : (b :: t).reverse.head? = (b :: t).getLast? := List.head?_reverse _
      rw [hw, hz] at h3
      simpa using h3
    have hwb : (w == ',') = false := by rw [hwz]; simpa using hzq
    rw [hw, List.dropWhile_cons]
    simp only [hwb, Bool.false_eq_true, if_false]
    rw [← hw, List.reverse_reverse]

/-- C5: the value serializer of `__singleLineParser` (whose output,
comma-stripped, is the `values` fragment substituted for `{values}`)
renders an Integer value as its unquoted decimal literal, a Null value as
the literal `NULL`, a Text value as a single-quoted string with the raw
value interpolated and no escaping of embedded quotes, and a Binary value
as the backend-facing bytes literal (the Python rendering `b'...'` of the
bytes) with its `b` prefix dropped and no quoting added by the
serializer. -/
theorem value_serializer_contract (k : String) (n : Int) (s u : String) :
    pyStripComma (rowValues [(k, Value.int n)]) = Int.repr n ∧
    pyStripComma (rowValues [(k, Value.null)]) = "NULL" ∧
    pyStripComma (rowValues [(k, Value.text s)]) =
      "\x27" ++ s ++ "\x27" ∧
    pyStripComma (rowValues [(k, Value.bytes ("b\x27" ++ u ++ "\x27"))]) =
      "\x27" ++ u ++ "\x27" := by
  refine ⟨?_, ?_, ?_, ?_⟩
  · show pyStripComma ("" ++ (Int.repr n ++ ",")) = Int.repr n
    have hne := int_repr_data_ne_nil n
    have hall := int_repr_all_ne_comma n
    apply String.ext
    show stripBoth ((("" : String) ++ (Int.repr n ++ ",")).data) = (Int.repr n).data
    rw [String.data_append, String.data_append]
    show stripBoth ([] ++ ((Int.repr n).data ++ [','])) = (Int.repr n).data
    rw [List.nil_append]
    exact stripBoth_append_comma _ _ _
      (List.head?_eq_head hne) (List.getLast?_eq_getLast _ hne)
      (hall _ (List.head_mem hne)) (hall _ (List.getLast_mem hne))
  · show pyStripComma ("" ++ "NULL,") = "NULL"
    decide
  · show pyStripComma ("" ++ ("\x27" ++ (s ++ "\x27,"))) = "\x27" ++ s ++ "\x27"
    apply String.ext
    show stripBoth ((("" : String) ++ ("\x27" ++ (s ++ "\x27,"))).data) =
      ("\x27" ++ s ++ "\x27").data
    simp only [String.data_append]
    show stripBoth ([] ++ (['\x27'] ++ (s.data ++ ['\x27', ',']))) =
      '\x27' :: s.data ++ ['\x27']
    have hshape : ([] ++ (['\x27'] ++ (s.data ++ ['\x27', ',']))) =
        (('\x27' :: s.data ++ ['\x27']) ++ [',']) := by simp
    rw [hshape]
    exact stripBoth_append_comma _ '\x27' '\x27' rfl
      (by rw [show ('\x27' :: s.data ++ ['\x27']) = (('\x27' :: s.data) ++ ['\x27']) from rfl,
            List.getLast?_concat])
      (by decide) (by decide)
  · show pyStripComma ("" ++ pyDropOne (("b\x27" ++ (u ++ "\x27")) ++ ",")) =
      "\x27" ++ u ++ "\x27"
    apply String.ext
    have hdata : ((("b\x27" ++ (u ++ "\x27")) ++ ",") : String).data =
        'b' :: ('\x27' :: u.data ++ ['\x27', ',']) := by
      simp [String.data_append]
    show stripBoth ((("" : String) ++ pyDropOne (("b\x27" ++ (u ++ "\x27")) ++ ",")).data) =
      ("\x27" ++ u ++ "\x27").data
    rw [String.data_append]
    show stripBoth ([] ++ (String.mk (((("b\x27" ++ (u ++ "\x27")) ++ ",") : String).data.drop 1)).data) =
      ("\x27" ++ u ++ "\x27").data
    rw [hdata]
    show stripBoth ([] ++ ('\x27' :: u.data ++ ['\x27', ','])) = '\x27' :: u.data ++ ['\x27']
    have hshape : ([] ++ ('\x27' :: u.data ++ ['\x27', ','])) =
        (('\x27' :: u.data ++ ['\x27']) ++ [',']) := by simp
    rw [hshape]
    exact stripBoth_append_comma _ '\x27' '\x27' rfl
      (by rw [show ('\x27' :: u.data ++ ['\x27']) = (('\x27' :: u.data) ++ ['\x27']) from rfl,
            List.getLast?_concat])
      (by decide) (by decide)

lemma guardLoop_attempts_le (outcome : Nat → ConnAttempt) :
    ∀ (fuel i sleeps : Nat), (guardLoop outcome fuel i sleeps).attempts ≤ i + fuel := by
  intro fuel
  induction fuel with
  | zero => intro i sleeps; simp [guardLoop]
  | succ fuel ih =>
    intro i sleeps
    cases hoc : outcome i with
    | pingOk =>
      simp only [guardLoop, hoc]
      omega
    | pingFailConnectOk =>
      simp only [guardLoop, hoc]
      have := ih (i + 1) (sleeps + 1)
      omega
    | pingFailConnectRaise =>
      simp only [guardLoop, hoc]
      omega

lemma guardLoop_spec (outcome : Nat → ConnAttempt)
    (hnr : ∀ j, outcome j ≠ ConnAttempt.pingFailConnectRaise) :
    ∀ (fuel i sleeps : Nat),
      (guardLoop outcome fuel i sleeps).raised = false ∧
      ((guardLoop outcome fuel i sleeps).fatal = true →
        (guardLoop outcome fuel i sleeps).attempts = i + fuel ∧
        (guardLoop outcome fuel i sleeps).sleeps = sleeps + fuel) ∧
      ((guardLoop outcome fuel i sleeps).fatal = false →
        (guardLoop outcome fuel i sleeps).sleeps + i + 1 =
          sleeps + (guardLoop outcome fuel i sleeps).attempts) := by
  intro fuel
  induction fuel with
  | zero =>
    intro i sleeps
    refine ⟨rfl, fun _ => ⟨?_, ?_⟩, fun hf => ?_⟩
    · show i = i + 0
      omega
    · show sleeps = sleeps + 0
      omega
    · simp [guardLoop] at hf
  | succ fuel ih =>
    intro i sleeps
    cases hoc : outcome i with
    | pingOk =>
      simp only [guardLoop, hoc]
      exact ⟨by simp, by simp, fun _ => by omega⟩
    | pingFailConnectOk =>
      simp only [guardLoop, hoc]
      obtain ⟨r1, r2, r3⟩ := ih (i + 1) (sleeps + 1)
      refine ⟨r1, fun hf => ?_, fun hf => ?_⟩
      · obtain ⟨ha, hs⟩ := r2 hf
        omega
      · have := r3 hf
        omega
    | pingFailConnectRaise => exact absurd hoc (hnr i)

/-- C8 amended: `is_connected` performs at most 120 iterations of the
retry loop and terminates; provided every reconnect call returns rather
than raises, control returns to the caller without an exception, each
failed attempt is followed by exactly one one-time-unit delay (with its
warning log), and on exhausting all 120 attempts the fatal diagnostic
path is reached having slept 120 times. -/
theorem is_connected_bounded_retry (outcome : Nat → ConnAttempt) :
    (is_connected_model outcome).attempts ≤ 120 ∧
    ((∀ j, outcome j ≠ ConnAttempt.pingFailConnectRaise) →
      (is_connected_model outcome).raised = false ∧
      ((is_connected_model outcome).fatal = true →
        (is_connected_model outcome).attempts = 120 ∧
        (is_connected_model outcome).sleeps = 120) ∧
      ((is_connected_model outcome).fatal = false →
        (is_connected_model outcome).sleeps + 1 =
          (is_connected_model outcome).attempts)) := by
  unfold is_connected_model
  constructor
  · have h := guardLoop_attempts_le outcome 120 0 0
    omega
  · intro hnr
    obtain ⟨r1, r2, r3⟩ := guardLoop_spec outcome hnr 120 0 0
    refine ⟨r1, fun hf => ?_, fun hf => ?_⟩
    · obtain ⟨ha, hs⟩ := r2 hf
      exact ⟨by omega, by omega⟩
    · have h4 := r3 hf
      omega

/-- C8 amended, witness: with every probe failing but every reconnect
call returning, no exception escapes the loop. -/
theorem is_connected_bounded_retry_witness :
    (∀ j : Nat, (fun _ : Nat => ConnAttempt.pingFailConnectOk) j ≠
        ConnAttempt.pingFailConnectRaise) ∧
      (is_connected_model (fun _ => ConnAttempt.pingFailConnectOk)).raised = false :=
  ⟨fun _ h => ConnAttempt.noConfusion h,
   ((is_connected_bounded_retry (fun _ => ConnAttempt.pingFailConnectOk)).2
      (fun _ h => ConnAttempt.noConfusion h)).1⟩

lemma getD_map_range {β : Type} (f : Nat → β) (d : β) (q i : Nat) (h : i < q) :
    ((List.range q).map f).getD i d = f i := by
  rw [List.getD_eq_getElem?_getD, List.getElem?_map, List.getElem?_range h]
  rfl

/-- C9: when the quotient `q = len(s) // step` is at least 1, the batch
splitter returns exactly `q` chunks, the `i`-th being the window
`s[i : i+step]` at consecutive start indices; hence for `q ≥ 2` adjacent
chunks overlap in `step - 1` elements, and every chunk lies inside the
prefix `s[: q-1+step]`, so elements of `s` at index `≥ q-1+step` appear
in no chunk. -/
theorem batch_slice_window_semantics {α : Type} (s : List α) (step : Nat)
    (h : 1 ≤ s.length / step) :
    (batch_slice s step).length = s.length / step ∧
    (∀ i, i < s.length / step →
      (batch_slice s step).getD i [] = (s.drop i).take step) ∧
    (∀ i, i + 1 < s.length / step →
      ((batch_slice s step).getD i []).drop 1 =
          ((batch_slice s step).getD (i + 1) []).take (step - 1) ∧
        (((batch_slice s step).getD i []).drop 1).length = step - 1) ∧
    (∀ i, i < s.length / step →
      (batch_slice s step).getD i [] =
        ((s.take (s.length / step - 1 + step)).drop i).take step) := by
  have hq0 : s.length / step ≠ 0 := by omega
  have hstep : 1 ≤ step := by
    by_contra hc
    have hz : step = 0 := by omega
    rw [hz, Nat.div_zero] at h
    omega
  have hbs : batch_slice s step =
      (List.range (s.length / step)).map (fun index => (s.drop index).take step) := by
    unfold batch_slice
    rw [if_neg hq0]
  have hget : ∀ i, i < s.length / step →
      (batch_slice s step).getD i [] = (s.drop i).take step := by
    intro i hi
    rw [hbs, getD_map_range _ _ _ _ hi]
  have hmul : s.length / step * step ≤ s.length := Nat.div_mul_le_self _ _
  refine ⟨by rw [hbs]; simp, hget, ?_, ?_⟩
  · intro i hi
    have hi0 : i < s.length / step := by omega
    rw [hget i hi0, hget (i + 1) hi]
    have hlen : i + step ≤ s.length := by
      have h1 : (i + 2) * step ≤ s.length / step * step :=
        Nat.mul_le_mul_right step (by omega)
      have h2 : (i + 2) * step = i * step + 2 * step := by ring
      have h3 : i ≤ i * step := Nat.le_mul_of_pos_right i (by omega)
      omega
    constructor
    · rw [List.drop_take, List.drop_drop, List.take_take]
      congr 1
      exact (Nat.min_eq_left (by omega)).symm
    · rw [List.drop_take, List.drop_drop, List.length_take, List.length_drop]
      rw [Nat.min_eq_left (by omega)]
  · intro i hi
    rw [hget i hi, List.drop_take, List.take_take]
    congr 1
    exact (Nat.min_eq_left (by omega)).symm

/-- C9 witness: concrete instance at `s = [0,1,2,3,4]`, `step = 2`
(quotient 2: two overlapping windows `[0,1]`, `[1,2]`; elements at index
`≥ 3` are dropped). -/
theorem batch_slice_window_semantics_witness :
    1 ≤ ([0, 1, 2, 3, 4] : List Nat).length / 2 ∧
    ((batch_slice ([0, 1, 2, 3, 4] : List Nat) 2).length =
        ([0, 1, 2, 3, 4] : List Nat).length / 2 ∧
      (∀ i, i < ([0, 1, 2, 3, 4] : List Nat).length / 2 →
        (batch_slice ([0, 1, 2, 3, 4] : List Nat) 2).getD i [] =
          (([0, 1, 2, 3, 4] : List Nat).drop i).take 2) ∧
      (∀ i, i + 1 < ([0, 1, 2, 3, 4] : List Nat).length / 2 →
        ((batch_slice ([0, 1, 2, 3, 4] : List Nat) 2).getD i []).drop 1 =
            ((batch_slice ([0, 1, 2, 3, 4] : List Nat) 2).getD (i + 1) []).take (2 - 1) ∧
          (((batch_slice ([0, 1, 2, 3, 4] : List Nat) 2).getD i []).drop 1).length = 2 - 1) ∧
      (∀ i, i < ([0, 1, 2, 3, 4] : List Nat).length / 2 →
        (batch_slice ([0, 1, 2, 3, 4] : List Nat) 2).getD i [] =
          ((([0, 1, 2, 3, 4] : List Nat).take
              (([0, 1, 2, 3, 4] : List Nat).length / 2 - 1 + 2)).drop i).take 2)) :=
  ⟨by decide, batch_slice_window_semantics [0, 1, 2, 3, 4] 2 (by decide)⟩

lemma batch_slice_cons_head (x : RowSpec) (rest : List RowSpec) (bs : Nat)
    (hbs : 1 ≤ bs) :
    ∃ c cs, batch_slice (x :: rest) bs = (x :: c) :: cs := by
  unfold batch_slice
  by_cases hq : (x :: rest).length / bs = 0
  · rw [if_pos hq]
    exact ⟨rest, [], rfl⟩
  · rw [if_neg hq]
    obtain ⟨k, hk⟩ := Nat.exists_eq_succ_of_ne_zero hq
    obtain ⟨b, hb⟩ : ∃ b, bs = b + 1 := ⟨bs - 1, by omega⟩
    rw [hk, List.range_succ_eq_map, List.map_cons]
    refine ⟨rest.take b,
      (List.map Nat.succ (List.range k)).map
        (fun index => ((x :: rest).drop index).take bs), ?_⟩
    simp only [List.drop_zero]
    rw [hb, List.take_succ_cons]

lemma mapM_ok {α β : Type} (f : α → Except String β) (g : α → β) :
    ∀ (l : List α), (∀ x ∈ l, f x = Except.ok (g x)) →
      l.mapM f = Except.ok (l.map g) := by
  intro l
  induction l with
  | nil => intro h; rfl
  | cons x xs ih =>
    intro h
    rw [List.mapM_cons, h x (List.mem_cons_self x xs),
      ih (fun y hy => h y (List.mem_cons_of_mem x hy))]
    rfl

lemma batch_slice_mem {α : Type} (s : List α) (step : Nat) :
    ∀ b ∈ batch_slice s step, ∀ y ∈ b, y ∈ s := by
  intro b hb y hy
  unfold batch_slice at hb
  by_cases hq : s.length / step = 0
  · rw [if_pos hq] at hb
    rw [List.mem_singleton.mp hb] at hy
    exact hy
  · rw [if_neg hq] at hb
    obtain ⟨i, _, rfl⟩ := List.mem_map.mp hb
    exact List.drop_subset i s (List.take_subset step (s.drop i) hy)

lemma rowItems_all_dict (cols : List String) (batch : List RowSpec)
    (h : ∀ y ∈ batch, ∃ mm, y = RowSpec.dict mm) :
    rowItems cols batch = Except.ok (batch.map dictOf) := by
  cases batch with
  | nil => rfl
  | cons y ys =>
    obtain ⟨mm, rfl⟩ := h y (List.mem_cons_self y ys)
    unfold rowItems
    simp only [List.head?_cons]
    apply mapM_ok _ dictOf
    intro x hx
    obtain ⟨m2, rfl⟩ := h x hx
    rfl

lemma multiLineParser_head_dict (cols : List String) (sql : String)
    (m : List (String × Value)) (rest : List RowSpec)
    (kw : List (String × Value)) (bs : Nat) (hbs : 1 ≤ bs)
    (hall : ∀ r ∈ rest, ∃ mm, r = RowSpec.dict mm) :
    ∃ tl, multiLineParser cols sql (RowSpec.dict m :: rest) kw bs =
      Except.ok (singleLineParser sql m :: tl) := by
  have hall2 : ∀ y ∈ (RowSpec.dict m :: rest), ∃ mm, y = RowSpec.dict mm := by
    intro y hy
    rcases List.mem_cons.mp hy with rfl | hmem
    · exact ⟨m, rfl⟩
    · exact hall y hmem
  have hmapM : (batch_slice (RowSpec.dict m :: rest) bs).mapM (rowItems cols) =
      Except.ok ((batch_slice (RowSpec.dict m :: rest) bs).map
        (fun b => b.map dictOf)) := by
    apply mapM_ok
    intro b hb
    exact rowItems_all_dict cols b
      (fun y hy => hall2 y (batch_slice_mem _ _ b hb y hy))
  obtain ⟨c, cs, hb⟩ := batch_slice_cons_head (RowSpec.dict m) rest bs hbs
  unfold multiLineParser
  simp only [List.isEmpty_cons, Bool.false_eq_true, if_false]
  rw [hmapM, hb]
  simp only [List.map_cons, List.flatten_cons, List.map_append, dictOf, List.cons_append]
  exact ⟨_, rfl⟩

lemma select_static_wrapped (table : String) (args : List RowSpec)
    (kwargs : List (String × Value)) (h : 1 < args.length) :
    (if args.isEmpty && kwargs.isEmpty then "SELECT * FROM " ++ table
      else multiple (selectTemplate table) args kwargs) =
      pyReplace (pyReplace (selectTemplate table) "\x7b" "(\x7b") "\x7d" "\x7d)" := by
  cases args with
  | nil => simp at h
  | cons a t =>
    simp only [List.isEmpty_cons, Bool.false_and, Bool.false_eq_true, if_false]
    unfold multiple
    rw [if_pos (Or.inr h)]

lemma select_executed_of_head (table : String) (cols : List String)
    (args : List RowSpec) (kwargs : List (String × Value)) (bs : Nat)
    (s : String) (tl : List String)
    (h : select_statements table cols args kwargs bs = Except.ok (s :: tl)) :
    select_executed table cols args kwargs bs = Except.ok s := by
  unfold select_executed
  rw [h]

lemma select_statements_head_dict (table : String) (cols : List String)
    (m : List (String × Value)) (rest : List RowSpec) (kw : List (String × Value))
    (bs : Nat) (h1 : rest ≠ []) (hbs : 1 ≤ bs)
    (hall : ∀ r ∈ rest, ∃ mm, r = RowSpec.dict mm) :
    ∃ tl, select_statements table cols (RowSpec.dict m :: rest) kw bs =
      Except.ok (singleLineParser
        (pyReplace (pyReplace (selectTemplate table) "\x7b" "(\x7b") "\x7d" "\x7d)") m
        :: tl) := by
  have hlen : 1 < (RowSpec.dict m :: rest).length := by
    cases rest with
    | nil => exact absurd rfl h1
    | cons b u => simp
  unfold select_statements
  rw [select_static_wrapped table _ kw hlen]
  exact multiLineParser_head_dict cols _ m rest kw bs hbs hall

/-- C10 counterexample: a `select` call whose predicate rows mix shapes
— first a mapping, then a list, both landing in one batch — raises
`AttributeError` inside the statement parser (the dict-headed batch
dispatch calls `item.items()` on the list row) before `sql = sql[0]` is
ever reached, so the rows after the first are not silently discarded and
no statement is executed. -/
theorem select_mixed_shape_rows_raise :
    select_executed "t" ["id"]
        [RowSpec.dict [("id", Value.int 1)], RowSpec.list [Value.int 2]] [] 10000 =
      Except.error "AttributeError: \x27list\x27 object has no attribute \x27items\x27" := by
  decide

/-- C10 amended: a `select` call whose predicate rows are all
mapping-shaped executes only the first generated statement: the executed
SQL is the one built from the first row alone, and it is identical for
any two such calls agreeing on the first row — every row after the first
(and every keyword field-set) contributes nothing to the executed SQL.
Calls mixing row shapes instead raise inside the statement parser before
any indexing or execution. -/
theorem select_discards_extra_predicate_rows (table : String) (cols : List String)
    (m : List (String × Value)) (rest rest2 : List RowSpec)
    (kw kw2 : List (String × Value)) (bs : Nat)
    (h1 : rest ≠ []) (h2 : rest2 ≠ []) (hbs : 1 ≤ bs)
    (hall1 : ∀ r ∈ rest, ∃ mm, r = RowSpec.dict mm)
    (hall2 : ∀ r ∈ rest2, ∃ mm, r = RowSpec.dict mm) :
    select_executed table cols (RowSpec.dict m :: rest) kw bs =
        Except.ok (singleLineParser
          (pyReplace (pyReplace (selectTemplate table) "\x7b" "(\x7b") "\x7d" "\x7d)") m) ∧
      select_executed table cols (RowSpec.dict m :: rest) kw bs =
        select_executed table cols (RowSpec.dict m :: rest2) kw2 bs := by
  obtain ⟨tl1, hs1⟩ := select_statements_head_dict table cols m rest kw bs h1 hbs hall1
  obtain ⟨tl2, hs2⟩ := select_statements_head_dict table cols m rest2 kw2 bs h2 hbs hall2
  have e1 := select_executed_of_head table cols _ kw bs _ tl1 hs1
  have e2 := select_executed_of_head table cols _ kw2 bs _ tl2 hs2
  exact ⟨e1, e1.trans e2.symm⟩

/-- C10 witness: concrete two-row mapping-shaped predicate calls
differing only after the first row execute the same statement, built
from the first row. -/
theorem select_discards_extra_predicate_rows_witness :
    ([RowSpec.dict [("id", Value.int 2)]] ≠ ([] : List RowSpec)) ∧
    ([RowSpec.dict [("id", Value.int 3)]] ≠ ([] : List RowSpec)) ∧
    1 ≤ 10000 ∧
    (∀ r ∈ [RowSpec.dict [("id", Value.int 2)]], ∃ mm, r = RowSpec.dict mm) ∧
    (∀ r ∈ [RowSpec.dict [("id", Value.int 3)]], ∃ mm, r = RowSpec.dict mm) ∧
    (select_executed "t" []
        (RowSpec.dict [("id", Value.int 1)] :: [RowSpec.dict [("id", Value.int 2)]])
        [] 10000 =
        Except.ok (singleLineParser
          (pyReplace (pyReplace (selectTemplate "t") "\x7b" "(\x7b") "\x7d" "\x7d)")
          [("id", Value.int 1)]) ∧
      select_executed "t" []
          (RowSpec.dict [("id", Value.int 1)] :: [RowSpec.dict [("id", Value.int 2)]])
          [] 10000 =
        select_executed "t" []
          (RowSpec.dict [("id", Value.int 1)] :: [RowSpec.dict [("id", Value.int 3)]])
          [] 10000) :=
  ⟨by decide, by decide, by decide,
   fun r hr => ⟨[("id", Value.int 2)], List.mem_singleton.mp hr⟩,
   fun r hr => ⟨[("id", Value.int 3)], List.mem_singleton.mp hr⟩,
   select_discards_extra_predicate_rows "t" [] [("id", Value.int 1)]
     [RowSpec.dict [("id", Value.int 2)]] [RowSpec.dict [("id", Value.int 3)]]
     [] [] 10000 (by decide) (by decide) (by decide)
     (fun r hr => ⟨[("id", Value.int 2)], List.mem_singleton.mp hr⟩)
     (fun r hr => ⟨[("id", Value.int 3)], List.mem_singleton.mp hr⟩)⟩

end MysqlPkg
